import Mathlib

/-!
Shallow embedding of the attendance-summarization pipeline of
src/attendace.py (a Streamlit app built on pandas), together with proofs
of the behavioural claims about it.

Modelling conventions:
* Python strings are Lean `String`s; all string operations are
  re-implemented over the underlying character list by structural
  recursion so that concrete runs reduce inside the kernel.
* pandas DataFrames are modelled by the `Table` structure (column labels
  plus string-valued rows); `pd.read_csv` is modelled for the
  configurations the program uses (a single-character delimiter with the
  python engine and no quoting, and whitespace splitting with no header
  row).  Raising pandas exceptions is modelled by returning `none`.
* `st.error` followed by `st.stop()` is modelled as returning an
  `Except` error value naming which of the two error messages was shown.
* Python `datetime` values are records of `Nat` fields compared
  lexicographically, which agrees with the order on genuine points in
  time; `datetime.time` values likewise.
* machine floats only arise in `pd.to_numeric(..., errors="coerce")`
  followed by a lookup in the integer-keyed employee dict; that
  composite is modelled by `toNumericInt`, which yields the integer a
  numeric literal denotes when it denotes one (a non-integral or
  non-numeric literal can never equal an integer dict key, and is
  dropped by the subsequent `dropna` either way).
-/

namespace Attendance

/-- Model of datetime.time: hour, minute, second (microseconds unused). -/
structure Time where
  hour : Nat
  minute : Nat
  second : Nat
deriving DecidableEq

/-- Model of datetime.date as produced by Timestamp.dt.date. -/
structure Date where
  year : Nat
  month : Nat
  day : Nat
deriving DecidableEq

/-- Model of a pandas Timestamp (full calendar datetime). -/
structure DateTime where
  year : Nat
  month : Nat
  day : Nat
  hour : Nat
  minute : Nat
  second : Nat
deriving DecidableEq

/-- The date component, as in df["Timestamp"].dt.date. -/
def DateTime.date (t : DateTime) : Date := ⟨t.year, t.month, t.day⟩

/-- The time-of-day component, as in merged["CheckIn"].dt.time. -/
def DateTime.timeOfDay (t : DateTime) : Time := ⟨t.hour, t.minute, t.second⟩

/-- Range constraints satisfied by every real datetime.time value. -/
def Time.valid (t : Time) : Prop :=
  t.hour ≤ 23 ∧ t.minute ≤ 59 ∧ t.second ≤ 59

instance (t : Time) : Decidable t.valid := by unfold Time.valid; infer_instance

/-- Strict lexicographic order on lists of naturals; the standard order
on equal-length integer tuples. -/
def lexLt : List Nat → List Nat → Bool
  | [], [] => false
  | [], _ :: _ => true
  | _ :: _, [] => false
  | a :: as, b :: bs => if a < b then true else if b < a then false else lexLt as bs

/-- Field tuple of a datetime, most significant first. -/
def DateTime.fields (t : DateTime) : List Nat :=
  [t.year, t.month, t.day, t.hour, t.minute, t.second]

/-- Comparison of pandas Timestamps: on genuine datetimes the temporal
order is the lexicographic order on the field tuple. -/
def DateTime.ltB (a b : DateTime) : Bool := lexLt a.fields b.fields

/-- Field tuple of a time-of-day, most significant first. -/
def Time.fields (t : Time) : List Nat := [t.hour, t.minute, t.second]

/-- Comparison of datetime.time values (used by the Status and Early
Checkout tests in the source): lexicographic on (hour, minute, second). -/
def Time.ltB (a b : Time) : Bool := lexLt a.fields b.fields

instance : LT Time := ⟨fun a b => Time.ltB a b = true⟩

instance (a b : Time) : Decidable (a < b) := by
  show Decidable (Time.ltB a b = true); infer_instance

/-- Source lines 13-19: the module-level employee dict, id to name. -/
def employees : List (Int × String) :=
  [(1, "Ishmal"), (2, "Owais"), (3, "Neha"), (4, "Sarah"), (6, "Musfira"),
   (7, "Ayesha"), (8, "Junaid"), (9, "Abd-ur-Rehman"), (10, "Samra"),
   (13, "Shahida"), (15, "Seerat"), (16, "Usman"), (17, "Mahad"),
   (18, "Eman"), (19, "Izaz"), (20, "Kiran"), (21, "Hammad"),
   (24, "Faiza"), (26, "Laiba"), (29, "Ushna"), (30, "Ali"),
   (31, "Adnan"), (32, "Yaseen"), (33, "Abbas")]

/-- Source line 21: CHECKIN_THRESHOLD = time(9, 2, 0). -/
def CHECKIN_THRESHOLD : Time := ⟨9, 2, 0⟩

/-- Source line 22: CHECKOUT_THRESHOLD = time(17, 0, 0). -/
def CHECKOUT_THRESHOLD : Time := ⟨17, 0, 0⟩

/-- Source line 35: candidate user-identifier column names. -/
def CANDIDATE_USER_COLS : List String :=
  ["userid", "user_id", "pin", "enrollid", "empid", "id"]

/-- Source line 36: candidate timestamp column names. -/
def CANDIDATE_TIME_COLS : List String :=
  ["timestamp", "time", "datetime", "logtime", "punch time", "punch_time"]

/-! ### String utilities

Re-implementations, over the character list, of the Python string
operations the source uses, written so the kernel can evaluate them. -/

/-- Splitting at every occurrence of a separator character, as a
single-character str.split / pandas python-engine field split. -/
def splitOnChar (sep : Char) : List Char → List (List Char)
  | [] => [[]]
  | c :: cs =>
    match splitOnChar sep cs with
    | [] => [[c]]
    | h :: t => if c = sep then [] :: h :: t else (c :: h) :: t

/-- Splitting on runs of whitespace, dropping empty fields, as
str.split() with no argument / delim_whitespace=True. -/
def splitWsChar : List Char → List (List Char)
  | [] => []
  | c :: cs =>
    if c.isWhitespace then splitWsChar cs
    else
      match splitWsChar cs with
      | [] => [[c]]
      | h :: t =>
        match cs with
        | [] => [[c]]
        | c2 :: _ => if c2.isWhitespace then [c] :: h :: t else (c :: h) :: t

/-- Whitespace trim from both ends, as str.strip(). -/
def trimChars (cs : List Char) : List Char :=
  ((cs.dropWhile Char.isWhitespace).reverse.dropWhile Char.isWhitespace).reverse

/-- str.strip() on a Lean String. -/
def strip (s : String) : String := ⟨trimChars s.data⟩

/-- str.lower() on a Lean String (ASCII case folding suffices for the
candidate column names involved). -/
def toLowerS (s : String) : String := ⟨s.data.map Char.toLower⟩

/-- Collapsing of every whitespace run to a single space, as
re.sub(r"\s+", " ", x) in parse_dt. -/
def collapseWsAux : Bool → List Char → List Char
  | _, [] => []
  | prevWs, c :: cs =>
    if c.isWhitespace then
      if prevWs then collapseWsAux true cs else ' ' :: collapseWsAux true cs
    else c :: collapseWsAux false cs

/-- Whitespace-run collapsing on a String. -/
def collapseWs (s : String) : String := ⟨collapseWsAux false s.data⟩

/-- Splitting a text into lines at newline characters, discarding blank
lines (pandas skip_blank_lines, which is on for every read in the
source). -/
def linesOf (s : String) : List String :=
  ((splitOnChar '\n' s.data).map (fun l => (⟨l⟩ : String))).filter
    (fun l => strip l ≠ "")

/-- Splitting one line into fields at a delimiter. -/
def splitFields (sep : Char) (s : String) : List String :=
  (splitOnChar sep s.data).map (fun l => (⟨l⟩ : String))

/-- Splitting one line into whitespace-separated tokens. -/
def splitTokens (s : String) : List String :=
  (splitWsChar s.data).map (fun l => (⟨l⟩ : String))

/-- Value of a decimal digit character. -/
def digitVal (c : Char) : Option Nat :=
  if '0' ≤ c ∧ c ≤ '9' then some (c.toNat - '0'.toNat) else none

/-- Parse of a nonempty all-digit character list as a natural number. -/
def parseDigits (cs : List Char) : Option Nat :=
  match cs with
  | [] => none
  | _ =>
    cs.foldl (fun acc c =>
      match acc, digitVal c with
      | some n, some d => some (n * 10 + d)
      | _, _ => none) (some 0)

/-- Decimal digit character for a value below 10. -/
def digitChar (n : Nat) : Char := Char.ofNat ('0'.toNat + n)

/-- Decimal rendering of a natural number, fuelled so that it reduces in
the kernel; the fuel n + 1 always suffices. -/
def natDigitsAux : Nat → Nat → List Char
  | 0, _ => []
  | fuel + 1, n =>
    if n < 10 then [digitChar n]
    else natDigitsAux fuel (n / 10) ++ [digitChar (n % 10)]

/-- Decimal rendering of a natural number as a String (str(n)). -/
def natToStr (n : Nat) : String := ⟨natDigitsAux (n + 1) n⟩

/-- Splitting of a character list at the first dot, when present. -/
def splitDot : List Char → List Char × Option (List Char)
  | [] => ([], none)
  | c :: cs =>
    if c = '.' then ([], some cs)
    else
      match splitDot cs with
      | (i, f) => (c :: i, f)

/-- Model of line 113 together with line 114's dict lookup key:
pd.to_numeric(s, errors="coerce") produces a float, and mapping the
integer-keyed employees dict can only hit when that float equals an
integer.  toNumericInt returns that integer: an optional sign, a
nonempty digit string, and an optional fraction that is all zeros.
Anything else (including a genuinely fractional value, which could never
equal an integer dict key and is dropped by the subsequent dropna) gives
none.  Exponent notation is not modelled; no claim depends on it. -/
def toNumericInt (s : String) : Option Int :=
  let cs := s.data
  let signed : Int × List Char :=
    match cs with
    | '+' :: r => (1, r)
    | '-' :: r => (-1, r)
    | r => (1, r)
  match splitDot signed.2 with
  | (intPart, fracPart) =>
    match parseDigits intPart with
    | none => none
    | some n =>
      match fracPart with
      | none => some (signed.1 * n)
      | some f =>
        if f.all (fun c => c = '0') then some (signed.1 * n) else none

/-! ### Calendar arithmetic

Validity of parsed dates (datetime raises on out-of-range fields, which
makes strptime fail over to the next format) and the weekday used by the
weekend filter. -/

/-- Leap-year test of the Gregorian calendar. -/
def isLeap (y : Nat) : Bool := y % 4 = 0 && (y % 100 ≠ 0 || y % 400 = 0)

/-- Number of days in a month. -/
def daysInMonth (y m : Nat) : Nat :=
  if m = 2 then (if isLeap y then 29 else 28)
  else if m = 4 ∨ m = 6 ∨ m = 9 ∨ m = 11 then 30
  else 31

/-- Range constraints datetime enforces on its fields; strptime raises
(and the source falls through to the next format) outside them. -/
def DateTime.valid (t : DateTime) : Prop :=
  1 ≤ t.year ∧ t.year ≤ 9999 ∧ 1 ≤ t.month ∧ t.month ≤ 12 ∧
  1 ≤ t.day ∧ t.day ≤ daysInMonth t.year t.month ∧
  t.hour ≤ 23 ∧ t.minute ≤ 59 ∧ t.second ≤ 59

instance (t : DateTime) : Decidable t.valid := by
  unfold DateTime.valid; infer_instance

/-- Count of days since 0000-03-01 of a civil date with year ≥ 1
(standard era decomposition of the proleptic Gregorian calendar). -/
def dayNumber (d : Date) : Nat :=
  let y := if d.month ≤ 2 then d.year - 1 else d.year
  let era := y / 400
  let yoe := y % 400
  let mp := (d.month + 9) % 12
  let doy := (153 * mp + 2) / 5 + d.day - 1
  let doe := yoe * 365 + yoe / 4 - yoe / 100 + doy
  era * 146097 + doe

/-- Weekday with Monday = 0, as pandas .dt.weekday (the constant 2
aligns the era epoch, a Wednesday, with the Monday-based numbering). -/
def weekday (d : Date) : Nat := (dayNumber d + 2) % 7

/-! ### Timestamp parsing (parse_dt, source lines 90-100) -/

/-- Tokens of a strptime format string: year, month, day, hour, minute,
second directives and literal characters. -/
inductive FTok
  | year | month | day | hour | minute | second
  | lit : Char → FTok

/-- Greedy take of 1 to max leading digits, as the regexes strptime
compiles its directives to. -/
def takeDigits (max : Nat) (cs : List Char) : Option (Nat × List Char) :=
  match max, cs with
  | 0, _ => none
  | _ + 1, [] => none
  | m + 1, c :: rest =>
    match digitVal c with
    | none => none
    | some d =>
      match takeDigitsAux m rest d with
      | r => some r
where
  /-- Accumulating continuation: extend the value while digits remain
  and fuel allows. -/
  takeDigitsAux : Nat → List Char → Nat → Nat × List Char
    | 0, cs, acc => (acc, cs)
    | m + 1, cs, acc =>
      match cs with
      | [] => (acc, [])
      | c :: rest =>
        match digitVal c with
        | none => (acc, cs)
        | some d => takeDigitsAux m rest (acc * 10 + d)

/-- Partial field record accumulated while matching a format. -/
structure PartialDT where
  year : Nat := 1900
  month : Nat := 1
  day : Nat := 1
  hour : Nat := 0
  minute : Nat := 0
  second : Nat := 0

/-- Matching of a token list against the input characters, threading the
accumulated fields; mirrors the regex strptime builds (%Y takes up to 4
digits, the two-digit directives up to 2, literals match exactly). -/
def matchToks : List FTok → List Char → PartialDT → Option PartialDT
  | [], [], acc => some acc
  | [], _ :: _, _ => none
  | t :: ts, cs, acc =>
    match t with
    | .lit c =>
      match cs with
      | [] => none
      | c2 :: rest => if c2 = c then matchToks ts rest acc else none
    | .year =>
      match takeDigits 4 cs with
      | none => none
      | some (v, rest) => matchToks ts rest { acc with year := v }
    | .month =>
      match takeDigits 2 cs with
      | none => none
      | some (v, rest) => matchToks ts rest { acc with month := v }
    | .day =>
      match takeDigits 2 cs with
      | none => none
      | some (v, rest) => matchToks ts rest { acc with day := v }
    | .hour =>
      match takeDigits 2 cs with
      | none => none
      | some (v, rest) => matchToks ts rest { acc with hour := v }
    | .minute =>
      match takeDigits 2 cs with
      | none => none
      | some (v, rest) => matchToks ts rest { acc with minute := v }
    | .second =>
      match takeDigits 2 cs with
      | none => none
      | some (v, rest) => matchToks ts rest { acc with second := v }

/-- One pd.to_datetime(x, format=fmt) attempt: full match of the format
against the whole string, then the datetime constructor's range checks. -/
def strptime (fmt : List FTok) (s : String) : Option DateTime :=
  match matchToks fmt s.data {} with
  | none => none
  | some p =>
    let dt : DateTime := ⟨p.year, p.month, p.day, p.hour, p.minute, p.second⟩
    if dt.valid then some dt else none

/-- Format list of parse_dt source lines 93-95, in source order. -/
def DT_FORMATS : List (List FTok) :=
  [ [.year, .lit '-', .month, .lit '-', .day, .lit ' ',
     .hour, .lit ':', .minute, .lit ':', .second],
    [.day, .lit '/', .month, .lit '/', .year, .lit ' ',
     .hour, .lit ':', .minute, .lit ':', .second],
    [.month, .lit '/', .day, .lit '/', .year, .lit ' ',
     .hour, .lit ':', .minute, .lit ':', .second],
    [.year, .lit '/', .month, .lit '/', .day, .lit ' ',
     .hour, .lit ':', .minute, .lit ':', .second],
    [.day, .lit '-', .month, .lit '-', .year, .lit ' ',
     .hour, .lit ':', .minute, .lit ':', .second],
    [.year, .lit '-', .month, .lit '-', .day, .lit ' ',
     .hour, .lit ':', .minute],
    [.day, .lit '/', .month, .lit '/', .year, .lit ' ',
     .hour, .lit ':', .minute],
    [.month, .lit '/', .day, .lit '/', .year, .lit ' ',
     .hour, .lit ':', .minute] ]

/-- First format of the list that matches, as the for-loop over formats
in parse_dt. -/
def tryFormats (fmts : List (List FTok)) (s : String) : Option DateTime :=
  match fmts with
  | [] => none
  | f :: fs =>
    match strptime f s with
    | some dt => some dt
    | none => tryFormats fs s

/-- Restricted model of the final pd.to_datetime(x, errors="coerce")
best-effort fallback of parse_dt: the bare ISO date form, midnight time.
The full dateutil grammar is far larger; no claim in this development
depends on inputs that reach the fallback, so only this form is
modelled. -/
def genericParse (s : String) : Option DateTime :=
  strptime [.year, .lit '-', .month, .lit '-', .day] s

/-- parse_dt, source lines 90-100: strip, collapse whitespace runs, try
the fixed formats in order, then the generic fallback; a None result is
the NaT later removed by dropna. -/
def parseDt (s : String) : Option DateTime :=
  let x := collapseWs (strip s)
  match tryFormats DT_FORMATS x with
  | some dt => some dt
  | none => genericParse x

/-! ### CSV reading (source lines 38-52) -/

/-- Column label of a parsed table: a header string, or the positional
integer label pandas assigns when header=None. -/
inductive ColLabel
  | str : String → ColLabel
  | num : Nat → ColLabel
deriving DecidableEq

/-- Parsed table: column labels and rows of string-valued cells.
Missing trailing cells of a short row are padded with "", standing for
the NaN pandas fills in (an empty cell never parses as a timestamp, so
it is dropped downstream exactly as NaN is). -/
structure Table where
  cols : List ColLabel
  rows : List (List String)
deriving DecidableEq

/-- Padding of a row to the table width with empty cells. -/
def padTo (n : Nat) (r : List String) : List String :=
  r ++ List.replicate (n - r.length) ""

/-- Model of pd.read_csv(buf, sep=sep, engine="python") for a
single-character separator on unquoted text: the first line is the
header, later lines are data; a line with more fields than the header
raises (none), one with fewer is padded with NaN; empty input raises
EmptyDataError (none).  Quoting, duplicate-header mangling and
index-column inference are outside the inputs this development
evaluates. -/
def readCsvSep (sep : Char) (text : String) : Option Table :=
  match linesOf text with
  | [] => none
  | h :: t =>
    let header := splitFields sep h
    let n := header.length
    let data := t.map (splitFields sep)
    if data.any (fun r => n < r.length) then none
    else some ⟨header.map .str, data.map (padTo n)⟩

/-- Model of pd.read_csv(buf, delim_whitespace=True, engine="python",
header=None): every line is data split on whitespace runs, positional
integer column labels, width set by the first line. -/
def readCsvWs (text : String) : Option Table :=
  match linesOf text with
  | [] => none
  | h :: t =>
    let first := splitTokens h
    let n := first.length
    let data := t.map splitTokens
    if data.any (fun r => n < r.length) then none
    else some ⟨(List.range n).map .num, (first :: data).map (padTo n)⟩

/-- The separator loop of _try_read_csv, source lines 40-47: first
separator whose parse succeeds with at least 2 columns wins; a parse
failure or a thin result falls through to the next. -/
def trySeps : List Char → String → Option Table
  | [], text => readCsvWs text
  | sep :: ss, text =>
    match readCsvSep sep text with
    | some tab => if 2 ≤ tab.cols.length then some tab else trySeps ss text
    | none => trySeps ss text

/-- _try_read_csv, source lines 38-52: tab, comma, semicolon, pipe, then
the whitespace fallback; none models returning None. -/
def tryReadCsv (text : String) : Option Table :=
  trySeps ['\t', ',', ';', '|'] text

/-! ### Column detection and extraction (source lines 61-107) -/

/-- Terminal failures of _extract_dataframe: the two st.error+st.stop
sites, lines 78-79 (parse) and 84-85 (column detection, which reports
the discovered column names). -/
inductive ExtractError
  | parseError
  | columnDetectionError : List String → ExtractError
deriving DecidableEq

/-- Lookup of one candidate list against the lowered column names.  The
source builds the dict {c.lower(): c}, in which a later column with the
same lowered name overwrites an earlier one, so the last matching
column label is returned. -/
def findCand (cands : List String) (cols : List String) : Option String :=
  match cands with
  | [] => none
  | k :: ks =>
    if (cols.map toLowerS).contains k then
      (cols.filter (fun c => toLowerS c = k)).getLast?
    else findCand ks cols

/-- _detect_columns, source lines 61-72: first match of each candidate
list, and the positional fallback to columns 0 and 1 only when both
lists failed and the table has at least 2 columns. -/
def detectColumns (cols : List String) : Option String × Option String :=
  let user := findCand CANDIDATE_USER_COLS cols
  let ts := findCand CANDIDATE_TIME_COLS cols
  if user = none ∧ ts = none ∧ 2 ≤ cols.length then (cols[0]?, cols[1]?)
  else (user, ts)

/-- Header coercion of source lines 80-81: when any column label is not
a string, every label is replaced by col_1, col_2, ...; otherwise the
string labels are kept. -/
def coerceColumns (t : Table) : List String :=
  if t.cols.any (fun c => match c with | .num _ => true | .str _ => false) then
    (List.range t.cols.length).map (fun i => "col_" ++ natToStr (i + 1))
  else
    t.cols.map (fun c => match c with | .str s => s | .num n => natToStr n)

/-- Index of the first column carrying a label (label selection
df[[user_col, ts_col]]; the labels involved are distinct in every run
this development evaluates). -/
def colIndex (cols : List String) (label : String) : Nat :=
  (cols.indexOf label)

/-- One canonical event: the UserID cell (stripped) and its parsed
timestamp. -/
structure Event where
  userId : String
  ts : DateTime
deriving DecidableEq

/-- The canonical events of a parsed table, source lines 86-103: the
user and timestamp cells selected by label, the id stripped, the
timestamp cell parsed per parse_dt, unparseable rows dropped (dropna). -/
def rowsToEvents (raw : Table) (userCol tsCol : String) : List Event :=
  raw.rows.filterMap (fun r =>
    (parseDt (r.getD (colIndex (coerceColumns raw) tsCol) "")).map (fun dt =>
      (⟨strip (r.getD (colIndex (coerceColumns raw) userCol) ""), dt⟩ : Event)))

/-- The post-parse stage of _extract_dataframe, source lines 77-107: the
empty check, header coercion, column detection, row conversion, and the
optional weekday filter of source lines 105-106. -/
def extractTable (raw : Table) (weekendsOff : Bool) :
    Except ExtractError (List Event) :=
  if raw.rows.length = 0 then .error .parseError
  else
    match detectColumns (coerceColumns raw) with
    | (some userCol, some tsCol) =>
      if weekendsOff then
        .ok ((rowsToEvents raw userCol tsCol).filter
          (fun e => weekday e.ts.date < 5))
      else .ok (rowsToEvents raw userCol tsCol)
    | _ => .error (.columnDetectionError (coerceColumns raw))

/-- _extract_dataframe, source lines 74-107: parse attempts (a None
result or an empty parse is the ParseError stop), then the post-parse
stage. -/
def extract (text : String) (weekendsOff : Bool) :
    Except ExtractError (List Event) :=
  match tryReadCsv text with
  | none => .error .parseError
  | some raw => extractTable raw weekendsOff

/-! ### Daily summarization (_summarize_attendance, source lines 109-130) -/

instance {ε α : Type} [DecidableEq ε] [DecidableEq α] :
    DecidableEq (Except ε α)
  | .error a, .error b =>
    if h : a = b then .isTrue (by rw [h])
    else .isFalse (by intro hh; cases hh; exact h rfl)
  | .error _, .ok _ => .isFalse (by intro h; cases h)
  | .ok _, .error _ => .isFalse (by intro h; cases h)
  | .ok a, .ok b =>
    if h : a = b then .isTrue (by rw [h])
    else .isFalse (by intro hh; cases hh; exact h rfl)

/-- Timestamps of the (user, date) group of an event list: the rows the
groupby on ["UserID", "Date"] collects under that key. -/
def groupTs (events : List Event) (u : String) (d : Date) : List DateTime :=
  (events.filter (fun e => decide (e.userId = u ∧ e.ts.date = d))).map Event.ts

/-- Group minimum by full-timestamp comparison, as the groupby .min()
of source line 110; none on an empty group. -/
def tsMin (l : List DateTime) : Option DateTime :=
  match l with
  | [] => none
  | x :: xs => some (xs.foldl (fun acc t => if DateTime.ltB t acc then t else acc) x)

/-- Group maximum by full-timestamp comparison, as the groupby .max()
of source line 111. -/
def tsMax (l : List DateTime) : Option DateTime :=
  match l with
  | [] => none
  | x :: xs => some (xs.foldl (fun acc t => if DateTime.ltB acc t then t else acc) x)

/-- One row of the output detail table, with the column set of source
line 130. -/
structure Row where
  userId : String
  name : String
  date : Date
  checkIn : Time
  checkOut : Time
  status : String
  minutesLate : Int
  earlyCheckout : String
  minutesEarly : Int
deriving DecidableEq

/-- The detail row a (UserID, Date) group key produces, source lines
110-127: the merged min/max timestamps of the key's group, the numeric
coercion of the id joined against the employees dict (none models the
NaN name removed by the dropna of line 115), the time-of-day reduction,
and the four classification columns.  The status and early-checkout
tests compare full time-of-day values; the two minutes columns use only
the hour and minute fields, clamped at 0. -/
def mkRow (events : List Event) (late_t early_checkout_t : Time)
    (k : String × Date) : Option Row :=
  (tsMin (groupTs events k.1 k.2)).bind fun ci =>
  (tsMax (groupTs events k.1 k.2)).bind fun co =>
  (toNumericInt k.1).bind fun uid =>
  (employees.lookup uid).map fun name =>
    { userId := k.1
      name := name
      date := k.2
      checkIn := ci.timeOfDay
      checkOut := co.timeOfDay
      status := if late_t < ci.timeOfDay then "Late" else "On Time"
      minutesLate := max 0 (((ci.timeOfDay.hour : Int) - (late_t.hour : Int)) * 60 +
        ((ci.timeOfDay.minute : Int) - (late_t.minute : Int)))
      earlyCheckout := if co.timeOfDay < early_checkout_t then "Yes" else "No"
      minutesEarly := max 0 (((early_checkout_t.hour : Int) - (co.timeOfDay.hour : Int)) * 60 +
        ((early_checkout_t.minute : Int) - (co.timeOfDay.minute : Int))) }

/-- Lexicographic order on dates. -/
def Date.ltB (a b : Date) : Bool :=
  lexLt [a.year, a.month, a.day] [b.year, b.month, b.day]

/-- Sort key of source line 128: the numeric user id, then the date.
Every surviving row has a coercible id, so the fallback 0 is never
reached on pipeline output. -/
def rowLeB (a b : Row) : Bool :=
  let ka := (toNumericInt a.userId).getD 0
  let kb := (toNumericInt b.userId).getD 0
  if ka < kb then true
  else if kb < ka then false
  else !(Date.ltB b.date a.date)

/-- _summarize_attendance, source lines 109-130: one candidate row per
distinct (UserID, Date) key of the events, kept when the id joins
against the employees dict, sorted ascending by (numeric id, date). -/
def summarize (events : List Event) (late_t early_checkout_t : Time) : List Row :=
  List.insertionSort (fun a b => rowLeB a b = true)
    (((events.map (fun e => (e.userId, e.ts.date))).dedup).filterMap
      (mkRow events late_t early_checkout_t))

/-! ### Per-employee totals (source lines 212-227)

The source builds each counter as a groupby over the detail table and
left-merges it, with fillna(0), onto the frame of all employee names.
A groupby count for a present name is the length of the matching filter
of the detail rows, and the fillna supplies 0 exactly when that filter
is empty, so each merged column is the total function below evaluated
at each name. -/

/-- Total Lates of one employee, source line 212: detail rows of that
name whose Status is "Late" (0 for a name with no rows, via fillna). -/
def lateCount (summary : List Row) (name : String) : Nat :=
  (summary.filter (fun r => decide (r.name = name ∧ r.status = "Late"))).length

/-- Total Early Checkout of one employee, source line 213. -/
def earlyCount (summary : List Row) (name : String) : Nat :=
  (summary.filter (fun r => decide (r.name = name ∧ r.earlyCheckout = "Yes"))).length

/-- The distinct dates of the detail table, source line 216:
summary["Date"].unique(), used as a set. -/
def datesInData (summary : List Row) : List Date :=
  (summary.map Row.date).dedup

/-- The employee-name by observed-date grid of source lines 217-218:
MultiIndex.from_product of employees.values() and the distinct dates. -/
def fullGrid (summary : List Row) : List (String × Date) :=
  (employees.map Prod.snd).flatMap
    (fun n => (datesInData summary).map (fun d => (n, d)))

/-- Total Leaves of one employee, source lines 219-220: the grid pairs
of that name left unmatched by the left merge against the detail table
(indicator "left_only"), counted per name.  A grid pair matched by
several detail rows is duplicated by the merge with indicator "both"
and contributes nothing to the count either way. -/
def leaveCount (summary : List Row) (name : String) : Nat :=
  ((fullGrid summary).filter (fun p =>
    decide (p.1 = name) &&
      !(summary.any (fun r => decide (r.name = p.1 ∧ r.date = p.2))))).length

/-- The totals table of source lines 223-227: one row per employees
entry, in dict order, carrying (Name, Total Lates, Total Early
Checkout, Total Leaves). -/
def summaryCounts (summary : List Row) : List (String × Nat × Nat × Nat) :=
  employees.map (fun e =>
    (e.2, lateCount summary e.2, earlyCount summary e.2, leaveCount summary e.2))

/-- The main flow applied to an uploaded buffer, source lines 176-180:
extraction followed by summarization with the two module thresholds. -/
def pipeline (text : String) (weekendsOff : Bool) :
    Except ExtractError (List Row) :=
  (extract text weekendsOff).map
    (fun evs => summarize evs CHECKIN_THRESHOLD CHECKOUT_THRESHOLD)

/-- The distinct dates on which a given employee has a detail row. -/
def distinctDatesFor (summary : List Row) (name : String) : List Date :=
  ((summary.filter (fun r => decide (r.name = name))).map Row.date).dedup

/-- Scenario input: two punches of user 2 on one date, 08:55 and 17:30. -/
def demoPunches : List Event :=
  [⟨"2", ⟨2024, 1, 2, 8, 55, 0⟩⟩, ⟨"2", ⟨2024, 1, 2, 17, 30, 0⟩⟩]

/-- The detail row the scenario punches produce. -/
def demoRowB : Row :=
  { userId := "2", name := "Owais", date := ⟨2024, 1, 2⟩
    checkIn := ⟨8, 55, 0⟩, checkOut := ⟨17, 30, 0⟩
    status := "On Time", minutesLate := 0
    earlyCheckout := "No", minutesEarly := 0 }

/-! ### Order lemmas for the lexicographic comparison -/

theorem lexLt_irrefl (l : List Nat) : lexLt l l = false := by
  induction l with
  | nil => rfl
  | cons a as ih => simp [lexLt, ih]

theorem lexLt_asymm : ∀ {a b : List Nat}, lexLt a b = true → lexLt b a = false
  | [], [], h => by simp [lexLt] at h
  | [], _ :: _, _ => by simp [lexLt]
  | _ :: _, [], h => by simp [lexLt] at h
  | a :: as, b :: bs, h => by
    simp only [lexLt] at h ⊢
    by_cases h1 : a < b
    · have h2 : ¬ b < a := by omega
      simp [h1, h2]
    · by_cases h2 : b < a
      · rw [if_neg h1, if_pos h2] at h; cases h
      · rw [if_neg h1, if_neg h2] at h
        rw [if_neg h2, if_neg h1]
        exact lexLt_asymm h

theorem lexLt_or : ∀ {a c : List Nat} (b : List Nat),
    lexLt a c = true → lexLt a b = true ∨ lexLt b c = true
  | [], [], _, h => by simp [lexLt] at h
  | _ :: _, [], _, h => by simp [lexLt] at h
  | [], _ :: _, [], _ => by right; simp [lexLt]
  | [], _ :: _, _ :: _, _ => by left; simp [lexLt]
  | _ :: _, _ :: _, [], _ => by right; simp [lexLt]
  | a :: as, c :: cs, b :: bs, h => by
    simp only [lexLt] at h
    rcases Nat.lt_trichotomy a b with hab | hab | hab
    · left; simp only [lexLt]; rw [if_pos hab]
    · subst hab
      by_cases hac : a < c
      · right; simp only [lexLt]; rw [if_pos hac]
      · by_cases hca : c < a
        · rw [if_neg hac, if_pos hca] at h; cases h
        · rw [if_neg hac, if_neg hca] at h
          rcases lexLt_or bs h with h' | h'
          · left; simp only [lexLt]
            rw [if_neg (lt_irrefl a), if_neg (lt_irrefl a)]; exact h'
          · right; simp only [lexLt]; rw [if_neg hac, if_neg hca]; exact h'
    · by_cases hac : a < c
      · right; simp only [lexLt]; rw [if_pos (by omega : b < c)]
      · by_cases hca : c < a
        · rw [if_neg hac, if_pos hca] at h; cases h
        · right; simp only [lexLt]
          have : b < c := by omega
          rw [if_pos this]

theorem dtLt_irrefl (a : DateTime) : DateTime.ltB a a = false :=
  lexLt_irrefl a.fields

theorem dtLt_asymm {a b : DateTime} (h : DateTime.ltB a b = true) :
    DateTime.ltB b a = false := lexLt_asymm h

theorem dtLt_or {a c : DateTime} (b : DateTime) (h : DateTime.ltB a c = true) :
    DateTime.ltB a b = true ∨ DateTime.ltB b c = true := lexLt_or b.fields h

/-! ### Correctness of the group min/max folds -/

theorem foldSel_spec {α : Type} (lt : α → α → Bool)
    (asym : ∀ a b, lt a b = true → lt b a = false)
    (tri : ∀ a b c, lt a c = true → lt a b = true ∨ lt b c = true)
    (xs : List α) (a : α) :
    (xs.foldl (fun acc t => if lt t acc then t else acc) a = a ∨
     xs.foldl (fun acc t => if lt t acc then t else acc) a ∈ xs) ∧
    ∀ x, (x = a ∨ x ∈ xs) →
      lt x (xs.foldl (fun acc t => if lt t acc then t else acc) a) = false := by
  have irrefl : ∀ y, lt y y = false := by
    intro y
    cases h : lt y y with
    | false => rfl
    | true => have h2 := asym y y h; rw [h] at h2; cases h2
  have chain : ∀ p q r, lt p q = false → lt q r = false → lt p r = false := by
    intro p q r hpq hqr
    cases h : lt p r with
    | false => rfl
    | true =>
      rcases tri p q r h with h1 | h1
      · rw [hpq] at h1; cases h1
      · rw [hqr] at h1; cases h1
  induction xs generalizing a with
  | nil =>
    refine ⟨Or.inl rfl, ?_⟩
    rintro x (rfl | hx)
    · simpa using irrefl x
    · simp at hx
  | cons y ys ih =>
    by_cases hy : lt y a = true
    · have hy2 : lt a y = false := asym y a hy
      simp only [List.foldl_cons, if_pos hy]
      obtain ⟨ih1, ih2⟩ := ih y
      constructor
      · rcases ih1 with h | h
        · right; rw [h]; exact List.mem_cons_self y ys
        · right; exact List.mem_cons_of_mem y h
      · rintro x (rfl | hx)
        · exact chain x y _ hy2 (ih2 y (Or.inl rfl))
        · rcases List.mem_cons.1 hx with rfl | hx
          · exact ih2 x (Or.inl rfl)
          · exact ih2 x (Or.inr hx)
    · have hy2 : lt y a = false := by
        cases h : lt y a with
        | false => rfl
        | true => exact absurd h hy
      simp only [List.foldl_cons, if_neg hy]
      obtain ⟨ih1, ih2⟩ := ih a
      constructor
      · rcases ih1 with h | h
        · left; exact h
        · right; exact List.mem_cons_of_mem y h
      · rintro x (rfl | hx)
        · exact ih2 x (Or.inl rfl)
        · rcases List.mem_cons.1 hx with rfl | hx
          · exact chain x a _ hy2 (ih2 a (Or.inl rfl))
          · exact ih2 x (Or.inr hx)

theorem tsMin_spec {l : List DateTime} {m : DateTime} (h : tsMin l = some m) :
    m ∈ l ∧ ∀ x ∈ l, DateTime.ltB x m = false := by
  cases l with
  | nil => simp [tsMin] at h
  | cons a xs =>
    simp only [tsMin, Option.some.injEq] at h
    obtain ⟨h1, h2⟩ := foldSel_spec DateTime.ltB (fun _ _ => dtLt_asymm)
      (fun _ b _ => dtLt_or b) xs a
    constructor
    · rw [← h]
      rcases h1 with h3 | h3
      · rw [h3]; exact List.mem_cons_self a xs
      · exact List.mem_cons_of_mem a h3
    · intro x hx
      rw [← h]
      rcases List.mem_cons.1 hx with rfl | hx2
      · exact h2 x (Or.inl rfl)
      · exact h2 x (Or.inr hx2)

theorem tsMax_spec {l : List DateTime} {m : DateTime} (h : tsMax l = some m) :
    m ∈ l ∧ ∀ x ∈ l, DateTime.ltB m x = false := by
  cases l with
  | nil => simp [tsMax] at h
  | cons a xs =>
    simp only [tsMax, Option.some.injEq] at h
    obtain ⟨h1, h2⟩ := foldSel_spec (fun u v => DateTime.ltB v u)
      (fun _ _ hh => dtLt_asymm hh)
      (fun _ b _ hh => (dtLt_or b hh).symm) xs a
    constructor
    · rw [← h]
      rcases h1 with h3 | h3
      · rw [h3]; exact List.mem_cons_self a xs
      · exact List.mem_cons_of_mem a h3
    · intro x hx
      rw [← h]
      rcases List.mem_cons.1 hx with rfl | hx2
      · exact h2 x (Or.inl rfl)
      · exact h2 x (Or.inr hx2)

/-! ### Structure of the summarizer output -/

theorem mem_summarize_iff {events : List Event} {late_t early_checkout_t : Time}
    {r : Row} :
    r ∈ summarize events late_t early_checkout_t ↔
      ∃ k ∈ (events.map (fun e => (e.userId, e.ts.date))).dedup,
        mkRow events late_t early_checkout_t k = some r := by
  unfold summarize
  rw [List.mem_insertionSort, List.mem_filterMap]

theorem mkRow_inv {events : List Event} {late_t early_checkout_t : Time}
    {k : String × Date} {r : Row}
    (h : mkRow events late_t early_checkout_t k = some r) :
    ∃ ci co uid name,
      tsMin (groupTs events k.1 k.2) = some ci ∧
      tsMax (groupTs events k.1 k.2) = some co ∧
      toNumericInt k.1 = some uid ∧
      employees.lookup uid = some name ∧
      r = { userId := k.1, name := name, date := k.2
            checkIn := ci.timeOfDay, checkOut := co.timeOfDay
            status := if late_t < ci.timeOfDay then "Late" else "On Time"
            minutesLate := max 0
              (((ci.timeOfDay.hour : Int) - (late_t.hour : Int)) * 60 +
               ((ci.timeOfDay.minute : Int) - (late_t.minute : Int)))
            earlyCheckout := if co.timeOfDay < early_checkout_t then "Yes" else "No"
            minutesEarly := max 0
              (((early_checkout_t.hour : Int) - (co.timeOfDay.hour : Int)) * 60 +
               ((early_checkout_t.minute : Int) - (co.timeOfDay.minute : Int))) } := by
  unfold mkRow at h
  rw [Option.bind_eq_some] at h
  obtain ⟨ci, hci, h⟩ := h
  rw [Option.bind_eq_some] at h
  obtain ⟨co, hco, h⟩ := h
  rw [Option.bind_eq_some] at h
  obtain ⟨uid, huid, h⟩ := h
  rw [Option.map_eq_some'] at h
  obtain ⟨name, hname, h⟩ := h
  exact ⟨ci, co, uid, name, hci, hco, huid, hname, h.symm⟩

/-- C2: for every row of the summarizer output, Status is "Late" exactly
when the check-in time-of-day is strictly greater than the check-in
threshold; equality gives "On Time". -/
theorem claim_C2 (events : List Event) (late_t early_checkout_t : Time) (r : Row)
    (h : r ∈ summarize events late_t early_checkout_t) :
    r.status = "Late" ↔ late_t < r.checkIn := by
  obtain ⟨k, -, hk⟩ := mem_summarize_iff.1 h
  obtain ⟨ci, co, uid, name, -, -, -, -, rfl⟩ := mkRow_inv hk
  by_cases hlt : late_t < ci.timeOfDay
  · simp [hlt]
  · simp only [if_neg hlt]
    constructor
    · intro hcontra; exact absurd hcontra (by decide)
    · intro hcontra; exact absurd hcontra hlt

/-- C2 witness: the scenario row with check-in 08:55 against threshold
09:02 instantiates the equivalence. -/
theorem claim_C2_witness :
    demoRowB ∈ summarize demoPunches ⟨9, 2, 0⟩ ⟨17, 0, 0⟩ ∧
    (demoRowB.status = "Late" ↔ (⟨9, 2, 0⟩ : Time) < demoRowB.checkIn) :=
  ⟨by decide, claim_C2 demoPunches ⟨9, 2, 0⟩ ⟨17, 0, 0⟩ demoRowB (by decide)⟩

theorem groupTs_mem {events : List Event} {u : String} {d : Date} {x : DateTime}
    (h : x ∈ groupTs events u d) : ∃ e ∈ events, e.ts = x := by
  unfold groupTs at h
  rw [List.mem_map] at h
  obtain ⟨e, he, rfl⟩ := h
  exact ⟨e, (List.mem_filter.1 he).1, rfl⟩

/-- When the full time-of-day tuple (th, tm, ts) is not lexicographically
below (h, m, s) and m is a real minute value, the clamped hour/minute
delta of the minutes columns is zero. -/
theorem minutes_clamp_zero {th tm ts h m s : Nat} (hm : m ≤ 59)
    (hnlt : lexLt [th, tm, ts] [h, m, s] = false) :
    max 0 (((h : Int) - (th : Int)) * 60 + ((m : Int) - (tm : Int))) = 0 := by
  have hle : ((h : Int) - (th : Int)) * 60 + ((m : Int) - (tm : Int)) ≤ 0 := by
    simp only [lexLt] at hnlt
    split_ifs at hnlt <;> omega
  exact max_eq_left hle

/-- C4: every row of the output detail table has a user id that coerces
to an integer key carried by the Directory, and groups whose id is not
coercible ("xyz") or not registered ("999") are dropped from the output
with no error raised. -/
theorem claim_C4 (events : List Event) (late_t early_checkout_t : Time) (r : Row)
    (h : r ∈ summarize events late_t early_checkout_t) :
    (∃ uid name, toNumericInt r.userId = some uid ∧
      employees.lookup uid = some name) ∧
    summarize [⟨"xyz", ⟨2024, 1, 2, 9, 0, 0⟩⟩] CHECKIN_THRESHOLD CHECKOUT_THRESHOLD = [] ∧
    summarize [⟨"999", ⟨2024, 1, 2, 9, 0, 0⟩⟩] CHECKIN_THRESHOLD CHECKOUT_THRESHOLD = [] := by
  refine ⟨?_, by decide, by decide⟩
  obtain ⟨k, -, hk⟩ := mem_summarize_iff.1 h
  obtain ⟨ci, co, uid, name, -, -, huid, hname, rfl⟩ := mkRow_inv hk
  exact ⟨uid, name, huid, hname⟩

/-- C4 witness: the scenario output row instantiates the invariant. -/
theorem claim_C4_witness :
    (∃ uid name, toNumericInt demoRowB.userId = some uid ∧
      employees.lookup uid = some name) ∧
    summarize [⟨"xyz", ⟨2024, 1, 2, 9, 0, 0⟩⟩] CHECKIN_THRESHOLD CHECKOUT_THRESHOLD = [] ∧
    summarize [⟨"999", ⟨2024, 1, 2, 9, 0, 0⟩⟩] CHECKIN_THRESHOLD CHECKOUT_THRESHOLD = [] :=
  claim_C4 demoPunches ⟨9, 2, 0⟩ ⟨17, 0, 0⟩ demoRowB (by decide)

/-- C5: Minutes Late of every row is the clamped hour/minute delta
against the check-in threshold, with the seconds fields ignored; as a
consequence a check-in of 09:02:30 against the 09:02:00 threshold is
classified Late with Minutes Late 0. -/
theorem claim_C5 (events : List Event) (late_t early_checkout_t : Time) (r : Row)
    (h : r ∈ summarize events late_t early_checkout_t) :
    r.minutesLate = max 0 (((r.checkIn.hour : Int) - (late_t.hour : Int)) * 60 +
      ((r.checkIn.minute : Int) - (late_t.minute : Int))) ∧
    ∃ r2 ∈ summarize [⟨"1", ⟨2024, 1, 2, 9, 2, 30⟩⟩]
        CHECKIN_THRESHOLD CHECKOUT_THRESHOLD,
      r2.status = "Late" ∧ r2.minutesLate = 0 := by
  refine ⟨?_, by decide⟩
  obtain ⟨k, -, hk⟩ := mem_summarize_iff.1 h
  obtain ⟨ci, co, uid, name, -, -, -, -, rfl⟩ := mkRow_inv hk
  rfl

/-- C5 witness: the scenario row instantiates the formula. -/
theorem claim_C5_witness :
    demoRowB.minutesLate = max 0
      (((demoRowB.checkIn.hour : Int) - ((9 : Nat) : Int)) * 60 +
       ((demoRowB.checkIn.minute : Int) - ((2 : Nat) : Int))) ∧
    ∃ r2 ∈ summarize [⟨"1", ⟨2024, 1, 2, 9, 2, 30⟩⟩]
        CHECKIN_THRESHOLD CHECKOUT_THRESHOLD,
      r2.status = "Late" ∧ r2.minutesLate = 0 :=
  claim_C5 demoPunches ⟨9, 2, 0⟩ ⟨17, 0, 0⟩ demoRowB (by decide)

/-- C6: Early Checkout of every row is "Yes" exactly when the check-out
time-of-day is strictly below the checkout threshold (equality gives
"No"), and Minutes Early is the clamped hour/minute delta, seconds
ignored. -/
theorem claim_C6 (events : List Event) (late_t early_checkout_t : Time) (r : Row)
    (h : r ∈ summarize events late_t early_checkout_t) :
    (r.earlyCheckout = "Yes" ↔ r.checkOut < early_checkout_t) ∧
    r.minutesEarly = max 0 (((early_checkout_t.hour : Int) - (r.checkOut.hour : Int)) * 60 +
      ((early_checkout_t.minute : Int) - (r.checkOut.minute : Int))) := by
  obtain ⟨k, -, hk⟩ := mem_summarize_iff.1 h
  obtain ⟨ci, co, uid, name, -, -, -, -, rfl⟩ := mkRow_inv hk
  constructor
  · by_cases hlt : co.timeOfDay < early_checkout_t
    · simp [hlt]
    · simp only [if_neg hlt]
      constructor
      · intro hc; exact absurd hc (by decide)
      · intro hc; exact absurd hc hlt
  · rfl

/-- C6 witness: the scenario row with check-out 17:30 against threshold
17:00 instantiates the equivalence and the formula. -/
theorem claim_C6_witness :
    (demoRowB.earlyCheckout = "Yes" ↔ demoRowB.checkOut < (⟨17, 0, 0⟩ : Time)) ∧
    demoRowB.minutesEarly = max 0
      ((((17 : Nat) : Int) - (demoRowB.checkOut.hour : Int)) * 60 +
       (((0 : Nat) : Int) - (demoRowB.checkOut.minute : Int))) :=
  claim_C6 demoPunches ⟨9, 2, 0⟩ ⟨17, 0, 0⟩ demoRowB (by decide)

/-- C10: on classified rows built from real datetimes and a real
checkout threshold, "On Time" forces Minutes Late 0 and Early Checkout
"No" forces Minutes Early 0: a non-positive full time-of-day comparison
bounds the clamped hour/minute delta by zero. -/
theorem claim_C10 (events : List Event) (late_t early_checkout_t : Time)
    (hval : ∀ e ∈ events, e.ts.valid) (hthr : early_checkout_t.valid) (r : Row)
    (h : r ∈ summarize events late_t early_checkout_t) :
    (r.status = "On Time" → r.minutesLate = 0) ∧
    (r.earlyCheckout = "No" → r.minutesEarly = 0) := by
  obtain ⟨k, -, hk⟩ := mem_summarize_iff.1 h
  obtain ⟨ci, co, uid, name, hci, hco, -, -, rfl⟩ := mkRow_inv hk
  obtain ⟨hciMem, -⟩ := tsMin_spec hci
  obtain ⟨e, heMem, hets⟩ := groupTs_mem hciMem
  have hciv : ci.valid := hets ▸ hval e heMem
  obtain ⟨-, -, -, -, -, -, -, hmin, -⟩ := hciv
  obtain ⟨-, hetm, -⟩ := hthr
  constructor
  · intro hstat
    have hstat2 : (if late_t < ci.timeOfDay then "Late" else "On Time") = "On Time" :=
      hstat
    have hlt : ¬ (late_t < ci.timeOfDay) := by
      intro hcontra
      rw [if_pos hcontra] at hstat2
      exact absurd hstat2 (by decide)
    have hltB : Time.ltB late_t ci.timeOfDay = false := by
      cases hb : Time.ltB late_t ci.timeOfDay with
      | false => rfl
      | true => exact absurd hb hlt
    exact minutes_clamp_zero hmin hltB
  · intro hearly
    have hearly2 : (if co.timeOfDay < early_checkout_t then "Yes" else "No") = "No" :=
      hearly
    have hlt : ¬ (co.timeOfDay < early_checkout_t) := by
      intro hcontra
      rw [if_pos hcontra] at hearly2
      exact absurd hearly2 (by decide)
    have hltB : Time.ltB co.timeOfDay early_checkout_t = false := by
      cases hb : Time.ltB co.timeOfDay early_checkout_t with
      | false => rfl
      | true => exact absurd hb hlt
    exact minutes_clamp_zero hetm hltB

/-- C10 witness: the scenario row instantiates both implications. -/
theorem claim_C10_witness :
    (∀ e ∈ demoPunches, e.ts.valid) ∧ (⟨17, 0, 0⟩ : Time).valid ∧
    ((demoRowB.status = "On Time" → demoRowB.minutesLate = 0) ∧
     (demoRowB.earlyCheckout = "No" → demoRowB.minutesEarly = 0)) :=
  ⟨by decide, by decide,
   claim_C10 demoPunches ⟨9, 2, 0⟩ ⟨17, 0, 0⟩ (by decide) (by decide) demoRowB (by decide)⟩

theorem countP_eq_one_of_nodup {α : Type} [DecidableEq α] {l : List α} {a : α}
    (hnd : l.Nodup) (ha : a ∈ l) :
    l.countP (fun x => decide (x = a)) = 1 := by
  induction l with
  | nil => simp at ha
  | cons b bs ih =>
    rw [List.countP_cons]
    by_cases hab : a = b
    · subst hab
      have hnotin : a ∉ bs := (List.nodup_cons.1 hnd).1
      have h0 : bs.countP (fun x => decide (x = a)) = 0 :=
        List.countP_eq_zero.2 (fun x hx => by
          simp only [decide_eq_true_eq]
          rintro rfl
          exact hnotin hx)
      simp [h0]
    · have ha2 : a ∈ bs := by
        rcases List.mem_cons.1 ha with h | h
        · exact absurd h hab
        · exact h
      have hba : ¬ (b = a) := fun h => hab h.symm
      have ihh := ih (List.nodup_cons.1 hnd).2 ha2
      simp [ihh, hba]

/-- C1 (amended): for every (user id, date) pair carrying at least one
canonical event whose id joins against the Directory, the summarizer
emits exactly one detail row, whose CheckIn and CheckOut are the
time-of-day components of the group minimum and maximum by full
timestamp comparison; and the scenario of two punches 08:55 and 17:30
of user 2 on one date yields exactly the single on-time row. -/
theorem claim_C1 (events : List Event) (late_t early_checkout_t : Time)
    (u : String) (d : Date)
    (hev : ∃ e ∈ events, e.userId = u ∧ e.ts.date = d)
    (hdir : ∃ uid name, toNumericInt u = some uid ∧
      employees.lookup uid = some name) :
    (summarize events late_t early_checkout_t).countP
        (fun r => decide (r.userId = u ∧ r.date = d)) = 1 ∧
    (∀ r ∈ summarize events late_t early_checkout_t, r.userId = u → r.date = d →
      (∃ m ∈ groupTs events u d,
        (∀ x ∈ groupTs events u d, DateTime.ltB x m = false) ∧
        r.checkIn = m.timeOfDay) ∧
      (∃ m ∈ groupTs events u d,
        (∀ x ∈ groupTs events u d, DateTime.ltB m x = false) ∧
        r.checkOut = m.timeOfDay)) ∧
    summarize demoPunches ⟨9, 2, 0⟩ ⟨17, 0, 0⟩ = [demoRowB] ∧
    demoRowB.checkIn = ⟨8, 55, 0⟩ ∧ demoRowB.checkOut = ⟨17, 30, 0⟩ ∧
    demoRowB.status = "On Time" := by
  have hkmem : (u, d) ∈ (events.map (fun e => (e.userId, e.ts.date))).dedup := by
    obtain ⟨e, he, hu, hd⟩ := hev
    exact List.mem_dedup.2 (List.mem_map.2 ⟨e, he, by rw [hu, hd]⟩)
  have hgmem : ∃ x, x ∈ groupTs events u d := by
    obtain ⟨e, he, hu, hd⟩ := hev
    refine ⟨e.ts, ?_⟩
    unfold groupTs
    exact List.mem_map_of_mem _ (List.mem_filter.2 ⟨he, by simp [hu, hd]⟩)
  have hmin : ∃ ci, tsMin (groupTs events u d) = some ci := by
    obtain ⟨x, hx⟩ := hgmem
    cases hg : groupTs events u d with
    | nil => rw [hg] at hx; simp at hx
    | cons a xs => exact ⟨_, rfl⟩
  have hmax : ∃ co, tsMax (groupTs events u d) = some co := by
    obtain ⟨x, hx⟩ := hgmem
    cases hg : groupTs events u d with
    | nil => rw [hg] at hx; simp at hx
    | cons a xs => exact ⟨_, rfl⟩
  obtain ⟨ci0, hci0⟩ := hmin
  obtain ⟨co0, hco0⟩ := hmax
  obtain ⟨uid0, name0, huid0, hname0⟩ := hdir
  have hF0 : ∃ r0, mkRow events late_t early_checkout_t (u, d) = some r0 := by
    simp only [mkRow, hci0, hco0, huid0, hname0, Option.some_bind, Option.map_some']
    exact ⟨_, rfl⟩
  obtain ⟨r0, hr0⟩ := hF0
  refine ⟨?_, ?_, by decide, rfl, rfl, rfl⟩
  · unfold summarize
    rw [(List.perm_insertionSort (fun a b => rowLeB a b = true) _).countP_eq]
    rw [List.countP_filterMap]
    have hfun : (fun k => ((Option.map (fun r => decide (r.userId = u ∧ r.date = d))
        (mkRow events late_t early_checkout_t k)).getD false))
        = fun k => decide (k = (u, d)) := by
      funext k
      by_cases hk : k = (u, d)
      · subst hk
        obtain ⟨ci, co, uid, name, -, -, -, -, hreq⟩ := mkRow_inv hr0
        rw [hr0]
        simp [hreq]
      · cases hFk : mkRow events late_t early_checkout_t k with
        | none => simp [hk]
        | some r2 =>
          obtain ⟨ci, co, uid, name, -, -, -, -, hreq⟩ := mkRow_inv hFk
          have hne : ¬ (r2.userId = u ∧ r2.date = d) := by
            rintro ⟨h1, h2⟩
            apply hk
            rw [hreq] at h1 h2
            exact Prod.ext h1 h2
          simp only [Option.map_some', Option.getD_some]
          rw [decide_eq_false hne, decide_eq_false hk]
    rw [hfun]
    exact countP_eq_one_of_nodup (List.nodup_dedup _) hkmem
  · intro r hr hru hrd
    obtain ⟨k, -, hk⟩ := mem_summarize_iff.1 hr
    obtain ⟨ci, co, uid, name, hci, hco, -, -, hreq⟩ := mkRow_inv hk
    subst hreq
    have hk1 : k.1 = u := hru
    have hk2 : k.2 = d := hrd
    rw [hk1, hk2] at hci hco
    exact ⟨⟨ci, (tsMin_spec hci).1, (tsMin_spec hci).2, rfl⟩,
           ⟨co, (tsMax_spec hco).1, (tsMax_spec hco).2, rfl⟩⟩

/-- C1 counterexample for the claim as stated: user 777 has an event,
hence a (user, date) pair with one canonical event, but no Directory
entry, and the summarizer emits no row at all for it. -/
theorem claim_C1_counterexample :
    (∃ e ∈ ([⟨"777", ⟨2024, 1, 2, 9, 0, 0⟩⟩] : List Event),
      e.userId = "777" ∧ e.ts.date = ⟨2024, 1, 2⟩) ∧
    summarize [⟨"777", ⟨2024, 1, 2, 9, 0, 0⟩⟩]
      CHECKIN_THRESHOLD CHECKOUT_THRESHOLD = [] := by
  constructor
  · decide
  · decide

/-- C1 witness: user 2 with the two scenario punches instantiates the
amended claim. -/
theorem claim_C1_witness :
    (summarize demoPunches ⟨9, 2, 0⟩ ⟨17, 0, 0⟩).countP
        (fun r => decide (r.userId = "2" ∧ r.date = ⟨2024, 1, 2⟩)) = 1 ∧
    (∀ r ∈ summarize demoPunches ⟨9, 2, 0⟩ ⟨17, 0, 0⟩,
      r.userId = "2" → r.date = ⟨2024, 1, 2⟩ →
      (∃ m ∈ groupTs demoPunches "2" ⟨2024, 1, 2⟩,
        (∀ x ∈ groupTs demoPunches "2" ⟨2024, 1, 2⟩, DateTime.ltB x m = false) ∧
        r.checkIn = m.timeOfDay) ∧
      (∃ m ∈ groupTs demoPunches "2" ⟨2024, 1, 2⟩,
        (∀ x ∈ groupTs demoPunches "2" ⟨2024, 1, 2⟩, DateTime.ltB m x = false) ∧
        r.checkOut = m.timeOfDay)) ∧
    summarize demoPunches ⟨9, 2, 0⟩ ⟨17, 0, 0⟩ = [demoRowB] ∧
    demoRowB.checkIn = ⟨8, 55, 0⟩ ∧ demoRowB.checkOut = ⟨17, 30, 0⟩ ∧
    demoRowB.status = "On Time" :=
  claim_C1 demoPunches ⟨9, 2, 0⟩ ⟨17, 0, 0⟩ "2" ⟨2024, 1, 2⟩
    (by decide) ⟨2, "Owais", by decide, by decide⟩

/-! ### Counting lemmas for the totals table -/

theorem filter_partition {α : Type} (p : α → Bool) (l : List α) :
    (l.filter p).length + (l.filter (fun a => !(p a))).length = l.length := by
  induction l with
  | nil => rfl
  | cons a as ih =>
    by_cases hpa : p a = true
    · simp [List.filter_cons, hpa]
      omega
    · have hpa2 : p a = false := by
        cases hh : p a with
        | false => rfl
        | true => exact absurd hh hpa
      simp [List.filter_cons, hpa2]
      omega

theorem grid_filter_nil {names : List String} {dates : List Date} {name : String}
    (Q : String × Date → Bool) (hnot : name ∉ names) :
    (names.flatMap (fun n => dates.map (fun d => (n, d)))).filter
      (fun p => decide (p.1 = name) && Q p) = [] := by
  rw [List.filter_eq_nil_iff]
  intro p hp
  rw [List.mem_flatMap] at hp
  obtain ⟨n, hn, hpin⟩ := hp
  rw [List.mem_map] at hpin
  obtain ⟨dd, -, rfl⟩ := hpin
  have hne : ¬ (n = name) := fun hh => hnot (hh ▸ hn)
  simp [hne]

theorem grid_filter_mem {names : List String} {dates : List Date} {name : String}
    (Q : String × Date → Bool) (hnd : names.Nodup) (hmem : name ∈ names) :
    ((names.flatMap (fun n => dates.map (fun d => (n, d)))).filter
      (fun p => decide (p.1 = name) && Q p)).length
    = (dates.filter (fun d => Q (name, d))).length := by
  induction names with
  | nil => simp at hmem
  | cons n ns ih =>
    rw [List.flatMap_cons, List.filter_append, List.length_append]
    by_cases hn : n = name
    · subst hn
      have hnotin : n ∉ ns := (List.nodup_cons.1 hnd).1
      rw [grid_filter_nil Q hnotin, List.length_nil, Nat.add_zero]
      rw [List.filter_map, List.length_map]
      congr 1
      apply List.filter_congr
      intro d hd
      simp [Function.comp]
    · have hmem2 : name ∈ ns := by
        rcases List.mem_cons.1 hmem with hh | hh
        · exact absurd hh.symm hn
        · exact hh
      have h0 : (dates.map (fun d => (n, d))).filter
          (fun p => decide (p.1 = name) && Q p) = [] := by
        rw [List.filter_eq_nil_iff]
        intro p hp
        rw [List.mem_map] at hp
        obtain ⟨dd, -, rfl⟩ := hp
        simp [hn]
      rw [h0, List.length_nil, Nat.zero_add]
      exact ih (List.nodup_cons.1 hnd).2 hmem2

theorem leaveCount_eq (summary : List Row) (name : String)
    (h : name ∈ employees.map Prod.snd) :
    leaveCount summary name = ((datesInData summary).filter (fun d =>
      !(summary.any (fun r => decide (r.name = name ∧ r.date = d))))).length := by
  unfold leaveCount fullGrid
  exact grid_filter_mem
    (fun p => !(summary.any (fun r => decide (r.name = p.1 ∧ r.date = p.2))))
    (by decide) h

theorem distinct_eq (summary : List Row) (name : String) :
    ((datesInData summary).filter (fun d =>
      summary.any (fun r => decide (r.name = name ∧ r.date = d)))).length
    = (distinctDatesFor summary name).length := by
  have hn1 : ((datesInData summary).filter (fun d =>
      summary.any (fun r => decide (r.name = name ∧ r.date = d)))).Nodup :=
    List.Nodup.filter _ (List.nodup_dedup _)
  have hn2 : (distinctDatesFor summary name).Nodup := List.nodup_dedup _
  have hiff : ∀ a, a ∈ (datesInData summary).filter (fun d =>
      summary.any (fun r => decide (r.name = name ∧ r.date = d))) ↔
      a ∈ distinctDatesFor summary name := by
    intro a
    constructor
    · intro ha
      obtain ⟨had, hany⟩ := List.mem_filter.1 ha
      rw [List.any_eq_true] at hany
      obtain ⟨r, hr, hpr⟩ := hany
      rw [decide_eq_true_eq] at hpr
      unfold distinctDatesFor
      rw [List.mem_dedup, List.mem_map]
      exact ⟨r, List.mem_filter.2 ⟨hr, by simp [hpr.1]⟩, hpr.2⟩
    · intro ha
      unfold distinctDatesFor at ha
      rw [List.mem_dedup, List.mem_map] at ha
      obtain ⟨r, hrf, hrd⟩ := ha
      obtain ⟨hr, hnm⟩ := List.mem_filter.1 hrf
      rw [decide_eq_true_eq] at hnm
      apply List.mem_filter.2
      constructor
      · unfold datesInData
        rw [List.mem_dedup, List.mem_map]
        exact ⟨r, hr, hrd⟩
      · rw [List.any_eq_true]
        exact ⟨r, hr, by rw [decide_eq_true_eq]; exact ⟨hnm, hrd⟩⟩
  exact ((List.perm_ext_iff_of_nodup hn1 hn2).2 hiff).length_eq

/-- C3: for every Directory employee, Total Leaves plus the number of
distinct dates carrying a detail row of that employee equals the size of
the effective date range (the distinct dates of the detail table); and
an employee with no detail rows keeps a totals-table entry with Total
Leaves equal to the full range size and zero for the two other
counters. -/
theorem claim_C3 (summary : List Row) (name : String)
    (h : name ∈ employees.map Prod.snd) :
    leaveCount summary name + (distinctDatesFor summary name).length
      = (datesInData summary).length ∧
    (summary.filter (fun r => decide (r.name = name)) = [] →
      lateCount summary name = 0 ∧ earlyCount summary name = 0 ∧
      (name, 0, 0, (datesInData summary).length) ∈ summaryCounts summary) := by
  constructor
  · rw [leaveCount_eq summary name h, ← distinct_eq summary name, Nat.add_comm]
    exact filter_partition _ _
  · intro hfil
    have hnone : ∀ r ∈ summary, ¬ (r.name = name) := by
      intro r hr
      have hh := List.filter_eq_nil_iff.1 hfil r hr
      simpa using hh
    have hlate : lateCount summary name = 0 := by
      unfold lateCount
      rw [List.length_eq_zero, List.filter_eq_nil_iff]
      intro r hr
      simp only [decide_eq_true_eq]
      rintro ⟨h1, -⟩
      exact hnone r hr h1
    have hearly : earlyCount summary name = 0 := by
      unfold earlyCount
      rw [List.length_eq_zero, List.filter_eq_nil_iff]
      intro r hr
      simp only [decide_eq_true_eq]
      rintro ⟨h1, -⟩
      exact hnone r hr h1
    have hleave : leaveCount summary name = (datesInData summary).length := by
      rw [leaveCount_eq summary name h]
      have hall : ∀ d ∈ datesInData summary,
          (!(summary.any (fun r => decide (r.name = name ∧ r.date = d)))) = true := by
        intro d hd
        simp only [Bool.not_eq_true', List.any_eq_false, decide_eq_true_eq]
        intro r hr hcon
        exact hnone r hr hcon.1
      rw [List.filter_eq_self.2 hall]
    refine ⟨hlate, hearly, ?_⟩
    obtain ⟨epair, hemem, hename⟩ := List.mem_map.1 h
    unfold summaryCounts
    apply List.mem_map.2
    refine ⟨epair, hemem, ?_⟩
    rw [hename, hlate, hearly, hleave]

/-- C3 witness: employee "Abbas" with no rows in the scenario summary
instantiates both halves. -/
theorem claim_C3_witness :
    (leaveCount (summarize demoPunches ⟨9, 2, 0⟩ ⟨17, 0, 0⟩) "Abbas" +
      (distinctDatesFor (summarize demoPunches ⟨9, 2, 0⟩ ⟨17, 0, 0⟩) "Abbas").length
      = (datesInData (summarize demoPunches ⟨9, 2, 0⟩ ⟨17, 0, 0⟩)).length) ∧
    ((summarize demoPunches ⟨9, 2, 0⟩ ⟨17, 0, 0⟩).filter
        (fun r => decide (r.name = "Abbas")) = [] →
      lateCount (summarize demoPunches ⟨9, 2, 0⟩ ⟨17, 0, 0⟩) "Abbas" = 0 ∧
      earlyCount (summarize demoPunches ⟨9, 2, 0⟩ ⟨17, 0, 0⟩) "Abbas" = 0 ∧
      ("Abbas", 0, 0, (datesInData (summarize demoPunches ⟨9, 2, 0⟩ ⟨17, 0, 0⟩)).length)
        ∈ summaryCounts (summarize demoPunches ⟨9, 2, 0⟩ ⟨17, 0, 0⟩)) :=
  claim_C3 (summarize demoPunches ⟨9, 2, 0⟩ ⟨17, 0, 0⟩) "Abbas" (by decide)

/-! ### Column detection and parse failure -/

theorem findCand_eq_none_iff (cands cols : List String) :
    findCand cands cols = none ↔ ∀ c ∈ cols, toLowerS c ∉ cands := by
  induction cands with
  | nil => simp [findCand]
  | cons k ks ih =>
    simp only [findCand]
    by_cases hc : (cols.map toLowerS).contains k = true
    · rw [if_pos hc]
      have hex : ∃ c ∈ cols, toLowerS c = k := by
        have hmem : k ∈ cols.map toLowerS := by simpa using hc
        rw [List.mem_map] at hmem
        obtain ⟨c, hcm, hck⟩ := hmem
        exact ⟨c, hcm, hck⟩
      obtain ⟨c, hcm, hck⟩ := hex
      have hfne : cols.filter (fun c2 => decide (toLowerS c2 = k)) ≠ [] := by
        intro h0
        have hcf : c ∈ cols.filter (fun c2 => decide (toLowerS c2 = k)) :=
          List.mem_filter.2 ⟨hcm, by simp [hck]⟩
        rw [h0] at hcf
        simp at hcf
      constructor
      · intro hL
        exact absurd (List.getLast?_eq_none_iff.1 hL) hfne
      · intro hall
        exact absurd (List.mem_cons_self k ks) (hck ▸ hall c hcm)
    · rw [if_neg hc, ih]
      have hnk : ∀ c ∈ cols, toLowerS c ≠ k := by
        intro c hcm hck
        exact hc (by
          rw [List.elem_iff]
          exact hck ▸ List.mem_map_of_mem toLowerS hcm)
      constructor
      · intro hall c hcm hin
        rcases List.mem_cons.1 hin with hh | hh
        · exact hnk c hcm hh
        · exact hall c hcm hh
      · intro hall c hcm hin
        exact hall c hcm (List.mem_cons_of_mem k hin)

/-- C7 (amended): the positional fallback (column 0 as user id, column 1
as timestamp) applies only when NEITHER candidate list matches any
column and the table has at least 2 columns; when the user list matches
and the timestamp list does not, no fallback occurs and the timestamp
column stays undetected, which aborts extraction with the
column-detection failure. -/
theorem claim_C7 :
    (∀ cols : List String, 2 ≤ cols.length →
      (∀ c ∈ cols, toLowerS c ∉ CANDIDATE_USER_COLS) →
      (∀ c ∈ cols, toLowerS c ∉ CANDIDATE_TIME_COLS) →
      detectColumns cols = (cols[0]?, cols[1]?)) ∧
    (∀ cols : List String,
      (∃ c ∈ cols, toLowerS c ∈ CANDIDATE_USER_COLS) →
      (∀ c ∈ cols, toLowerS c ∉ CANDIDATE_TIME_COLS) →
      (detectColumns cols).2 = none) := by
  constructor
  · intro cols hlen hu ht
    unfold detectColumns
    rw [if_pos ⟨(findCand_eq_none_iff _ _).2 hu,
                (findCand_eq_none_iff _ _).2 ht, hlen⟩]
  · intro cols hu ht
    unfold detectColumns
    have hune : ¬ (findCand CANDIDATE_USER_COLS cols = none) := by
      rw [findCand_eq_none_iff]
      intro hall
      obtain ⟨c, hcm, hcin⟩ := hu
      exact hall c hcm hcin
    have hteq : findCand CANDIDATE_TIME_COLS cols = none :=
      (findCand_eq_none_iff _ _).2 ht
    rw [if_neg (fun hcon => hune hcon.1)]
    exact hteq

/-- C7 counterexample for the claim as stated: the header (userid, foo)
has 2 columns and the timestamp list matches nothing, yet no positional
fallback happens — the timestamp column stays undetected and the
pipeline fails with the column-detection error. -/
theorem claim_C7_counterexample :
    2 ≤ (["userid", "foo"] : List String).length ∧
    (∀ c ∈ (["userid", "foo"] : List String), toLowerS c ∉ CANDIDATE_TIME_COLS) ∧
    detectColumns ["userid", "foo"] = (some "userid", none) ∧
    extract "userid,foo\n1,2024-01-02 09:05:00" false =
      .error (.columnDetectionError ["userid", "foo"]) := by
  refine ⟨by decide, by decide, by decide, by decide⟩

/-- C7 witness: a header matching neither list falls back positionally;
a header whose first column matches the user list keeps the timestamp
side undetected. -/
theorem claim_C7_witness :
    detectColumns ["aaa", "bbb"] = (some "aaa", some "bbb") ∧
    (detectColumns ["userid", "zzz"]).2 = none :=
  ⟨claim_C7.1 ["aaa", "bbb"] (by decide) (by decide) (by decide),
   claim_C7.2 ["userid", "zzz"] ⟨"userid", by decide, by decide⟩ (by decide)⟩

theorem coerceColumns_length (t : Table) :
    (coerceColumns t).length = t.cols.length := by
  unfold coerceColumns
  split_ifs <;> simp

theorem detect_single (c : String) :
    (detectColumns [c]).1 = none ∨ (detectColumns [c]).2 = none := by
  unfold detectColumns
  have hcond : ¬ (findCand CANDIDATE_USER_COLS [c] = none ∧
      findCand CANDIDATE_TIME_COLS [c] = none ∧
      2 ≤ ([c] : List String).length) := by
    rintro ⟨-, -, hlen⟩
    simp at hlen
  rw [if_neg hcond]
  cases hu : findCand CANDIDATE_USER_COLS [c] with
  | none => left; simp
  | some su =>
    cases ht : findCand CANDIDATE_TIME_COLS [c] with
    | none => right; simp
    | some st =>
      exfalso
      have hcu : toLowerS c ∈ CANDIDATE_USER_COLS := by
        by_contra hcon
        have hall : ∀ x ∈ ([c] : List String), toLowerS x ∉ CANDIDATE_USER_COLS := by
          intro x hx
          rcases List.mem_cons.1 hx with rfl | hh
          · exact hcon
          · simp at hh
        rw [(findCand_eq_none_iff _ _).2 hall] at hu
        cases hu
      have hct : toLowerS c ∈ CANDIDATE_TIME_COLS := by
        by_contra hcon
        have hall : ∀ x ∈ ([c] : List String), toLowerS x ∉ CANDIDATE_TIME_COLS := by
          intro x hx
          rcases List.mem_cons.1 hx with rfl | hh
          · exact hcon
          · simp at hh
        rw [(findCand_eq_none_iff _ _).2 hall] at ht
        cases ht
      simp only [CANDIDATE_USER_COLS, List.mem_cons, List.not_mem_nil,
        or_false] at hcu
      rcases hcu with h | h | h | h | h | h <;> rw [h] at hct <;>
        exact absurd hct (by decide)

/-- C8 (amended): the pipeline fails with ParseError exactly when no
read strategy yields a table at all or the parse is empty; a successful
whitespace-fallback parse with a single column is NOT a ParseError — it
reaches column detection, which cannot find two columns in a 1-column
table and aborts with the column-detection failure instead. -/
theorem claim_C8 :
    (∀ (text : String) (w : Bool), tryReadCsv text = none →
      extract text w = .error .parseError) ∧
    (∀ (text : String) (w : Bool) (t : Table), tryReadCsv text = some t →
      t.rows = [] → extract text w = .error .parseError) ∧
    (∀ (text : String) (w : Bool) (t : Table), tryReadCsv text = some t →
      t.rows ≠ [] → t.cols.length = 1 →
      ∃ cols, extract text w = .error (.columnDetectionError cols)) := by
  refine ⟨?_, ?_, ?_⟩
  · intro text w h
    unfold extract
    rw [h]
  · intro text w t h hrows
    have he : extract text w = extractTable t w := by unfold extract; rw [h]
    rw [he]
    unfold extractTable
    simp [hrows]
  · intro text w t h hrows hcols
    have he : extract text w = extractTable t w := by unfold extract; rw [h]
    rw [he]
    unfold extractTable
    have hlen0 : ¬ (t.rows.length = 0) := by simpa using hrows
    rw [if_neg hlen0]
    have hone : ∃ c, coerceColumns t = [c] := by
      have hl := coerceColumns_length t
      rw [hcols] at hl
      cases hcc : coerceColumns t with
      | nil => rw [hcc] at hl; simp at hl
      | cons c cs =>
        rw [hcc, List.length_cons] at hl
        have hcs : cs = [] := by
          cases cs with
          | nil => rfl
          | cons c2 cs2 => simp at hl
        exact ⟨c, by rw [hcs]⟩
    obtain ⟨c, hc⟩ := hone
    obtain ⟨o1, o2, hdet⟩ : ∃ o1 o2, detectColumns (coerceColumns t) = (o1, o2) :=
      ⟨_, _, rfl⟩
    rw [hdet]
    have hd2 : detectColumns [c] = (o1, o2) := by rw [← hc]; exact hdet
    rcases detect_single c with hd | hd <;> rw [hd2] at hd <;> simp at hd <;>
      subst hd
    · cases o2 <;> exact ⟨coerceColumns t, rfl⟩
    · cases o1 <;> exact ⟨coerceColumns t, rfl⟩

/-- C8 counterexample for the claim as stated: the input "abc" parses,
via the whitespace fallback, into a table of one column (fewer than 2),
and the failure raised is the column-detection error, not ParseError. -/
theorem claim_C8_counterexample :
    tryReadCsv "abc" = some ⟨[.num 0], [["abc"]]⟩ ∧
    extract "abc" false = .error (.columnDetectionError ["col_1"]) := by
  refine ⟨by decide, by decide⟩

/-- C8 witness: empty input parses to nothing and raises ParseError;
a header-only comma input parses empty and raises ParseError; a
two-line one-column input reaches the column-detection failure. -/
theorem claim_C8_witness :
    tryReadCsv "" = none ∧ extract "" false = .error .parseError ∧
    extract "1,2" false = .error .parseError ∧
    (∃ cols, extract "abc\ndef" false = .error (.columnDetectionError cols)) :=
  ⟨by decide, claim_C8.1 "" false (by decide),
   claim_C8.2.1 "1,2" false ⟨[.str "1", .str "2"], []⟩ (by decide) rfl,
   claim_C8.2.2 "abc\ndef" false ⟨[.num 0], [["abc"], ["def"]]⟩
     (by decide) (by decide) (by decide)⟩

/-- C9 counterexample for the claim as stated: on the single-line input
the only line is consumed as the CSV header, the parse is empty, and
the pipeline stops with ParseError instead of producing a detail row. -/
theorem claim_C9_counterexample :
    tryReadCsv "1,2024-01-02 09:05:00" =
      some ⟨[.str "1", .str "2024-01-02 09:05:00"], []⟩ ∧
    pipeline "1,2024-01-02 09:05:00" false = .error .parseError := by
  refine ⟨by decide, by decide⟩

/-- C9 (amended): since the first line is consumed as the header,
supplying the punch line twice (one copy as header, one as data) yields
exactly one detail row for user 1 ("Ishmal") with Status Late and
Minutes Late 3. -/
theorem claim_C9 :
    pipeline "1,2024-01-02 09:05:00\n1,2024-01-02 09:05:00" false =
      .ok [{ userId := "1", name := "Ishmal", date := ⟨2024, 1, 2⟩
             checkIn := ⟨9, 5, 0⟩, checkOut := ⟨9, 5, 0⟩, status := "Late"
             minutesLate := 3, earlyCheckout := "Yes", minutesEarly := 475 }] := by
  decide

end Attendance
